import Mathlib

/-!
Verification of the `log` package (logger.go): a shallow embedding of its
context carrier, caller resolver, field accumulator, response-capture
wrapper and logging facade, with theorems checking the specification's
claims against the embedded code.

Go maps are reference values, so the embedding threads an explicit `Heap`
of string maps; `context.Context` is the immutable parent-linked chain
`GoContext`; `logrus.Fields` is a total function `String → Option FieldValue`
with Go map-assignment semantics for insertion.
-/

set_option autoImplicit false

namespace GoLog

/-! ## getPackageName (logger.go 373-386) -/

/-- Model of `strings.LastIndex(f, sep)` for a one-character separator: the
index of the last occurrence, `-1` when absent. -/
def lastIndex (c : Char) : List Char → Int
  | [] => -1
  | x :: xs =>
    let r := lastIndex c xs
    if r ≥ 0 then r + 1
    else if x = c then 0 else -1

/-- Model of `getPackageName` (logger.go 374-386): reduces a fully qualified
function name to the package name by repeatedly stripping the final
`.`-separated segment while the last `.` lies strictly after the last `/`. -/
def getPackageName (f : List Char) : List Char :=
  if lastIndex '.' f > lastIndex '/' f then
    getPackageName (f.take (lastIndex '.' f).toNat)
  else
    f
termination_by f.length
decreasing_by
  simp only [List.length_take]
  have h1 : ∀ s : List Char, lastIndex '.' s < (s.length : Int) := by
    intro s
    induction s with
    | nil => simp [lastIndex]
    | cons x xs ih =>
      simp only [lastIndex, List.length_cons]
      split
      · push_cast; omega
      · split <;> (push_cast; omega)
  have h2 : ∀ s : List Char, -1 ≤ lastIndex '/' s := by
    intro s
    induction s with
    | nil => simp [lastIndex]
    | cons x xs _ih =>
      simp only [lastIndex]
      split
      · omega
      · split <;> omega
  have := h1 f
  have := h2 f
  omega

/-- Version of `getPackageName` acting on Lean strings. -/
def getPackageNameS (s : String) : String := String.mk (getPackageName s.data)

/-! ## Severity levels (logrus) -/

/-- Severity levels of the logrus sink, most severe first. -/
inductive Level
  | panic
  | fatal
  | error
  | warn
  | info
  | debug
  | trace
deriving DecidableEq

/-- Numeric value of a logrus level: PanicLevel = 0 through TraceLevel = 6
(smaller means more severe). -/
def Level.toNat : Level → Nat
  | .panic => 0
  | .fatal => 1
  | .error => 2
  | .warn => 3
  | .info => 4
  | .debug => 5
  | .trace => 6

/-! ## Field sets (logrus.Fields) -/

/-- Values stored in a field set: the code stores strings (func, file,
url_path, request, response, context data) and integers (response_code). -/
inductive FieldValue
  | str (s : String)
  | int (n : Int)
deriving DecidableEq

/-- Model of logrus.Fields: a finite map read as a total function. -/
abbrev Fields := String → Option FieldValue

/-- Fresh empty field set (log.Fields\x7b\x7d). -/
def emptyFields : Fields := fun _ => none

/-- Go map assignment lp.fields[k] = v. -/
def Fields.insert (lp : Fields) (k : String) (v : FieldValue) : Fields :=
  fun k2 => if k2 = k then some v else lp k2

/-! ## Go string maps with reference semantics -/

/-- Contents of one map[string]string, as an association list without
duplicate keys (maintained by StrMap.insert). -/
abbrev StrMap := List (String × String)

/-- Go map assignment m[k] = v: replace the binding if the key is present,
otherwise append it. -/
def StrMap.insert : StrMap → String → String → StrMap
  | [], k, v => [(k, v)]
  | (k1, v1) :: rest, k, v =>
    if k = k1 then (k, v) :: rest else (k1, v1) :: StrMap.insert rest k v

/-- Go map read m[k], as an Option (a missing key reads as the zero value). -/
def StrMap.lookup : StrMap → String → Option String
  | [], _ => none
  | (k1, v1) :: rest, k => if k = k1 then some v1 else StrMap.lookup rest k

/-- Go maps are reference values: the heap assigns contents to map
references; `next` is the next unallocated reference. -/
structure Heap where
  maps : Nat → StrMap
  next : Nat

/-- Reading the contents of a map reference. -/
def Heap.read (h : Heap) (ref : Nat) : StrMap := h.maps ref

/-- In-place mutation of the map object behind a reference. -/
def Heap.write (h : Heap) (ref : Nat) (m : StrMap) : Heap :=
  ⟨fun i => if i = ref then m else h.maps i, h.next⟩

/-- Allocation of a fresh map object (Go make(map[string]string)). -/
def Heap.alloc (h : Heap) (m : StrMap) : Heap × Nat :=
  (⟨fun i => if i = h.next then m else h.maps i, h.next + 1⟩, h.next)

/-! ## context.Context -/

/-- A value stored in a context: either a reference to a map[string]string
(what this package stores) or a value of any other dynamic type, on which
the package's type assertion fails. -/
inductive CtxVal
  | strMapRef (ref : Nat)
  | other
deriving DecidableEq

/-- Model of context.Context: Background and the WithValue chain. -/
inductive GoContext
  | background
  | withValue (parent : GoContext) (key : String) (val : CtxVal)
deriving DecidableEq

/-- Model of ctx.Value(key): the nearest binding walking toward the root. -/
def GoContext.value : GoContext → String → Option CtxVal
  | .background, _ => none
  | .withValue parent k v, key => if key = k then some v else parent.value key

/-- Key under which the context data map is stored (logger.go 51). -/
def ContextDataMapKey : String := "value"

/-- Well-known field keys (logger.go 54-58). -/
def ContextIdKey : String := "context_id"

/-- The url_path field key. -/
def PathKey : String := "url_path"

/-- The request field key. -/
def RequestKey : String := "request"

/-- The response field key. -/
def ResponseKey : String := "response"

/-- The response_code field key. -/
def ResponseCodeKey : String := "response_code"

/-- Struct contextData (logger.go 70-72). -/
structure contextData where
  contextId : String
deriving DecidableEq

/-- Model of getContextData (logger.go 116-129): reads the context data map
and, when the type assertion succeeds, packages data[ContextIdKey] (the zero
value "" when the key is missing). -/
def getContextData (h : Heap) (ctx : GoContext) : Option contextData :=
  match ctx.value ContextDataMapKey with
  | some (.strMapRef ref) => some ⟨(StrMap.lookup (h.read ref) ContextIdKey).getD ""⟩
  | _ => none

/-- Every map reference stored along the context chain is an allocated
reference, i.e. lies below the heap's allocation bound. -/
def ctxRefsBounded : GoContext → Nat → Bool
  | .background, _ => true
  | .withValue parent _ v, n =>
    (match v with
     | .strMapRef ref => decide (ref < n)
     | .other => true) && ctxRefsBounded parent n

/-! ## Requests and the body stream -/

/-- An http request body stream: the bytes not yet consumed. -/
structure BodyStream where
  unread : String
deriving DecidableEq

/-- Model of ioutil.ReadAll on a body stream: yields the unread bytes and
leaves the stream exhausted. -/
def readAll (b : BodyStream) : String × BodyStream := (b.unread, BodyStream.mk "")

/-- The slice of *http.Request the package touches: the attached context,
Host, URL.Path and the body stream. -/
structure Request where
  ctx : GoContext
  host : String
  urlPath : String
  body : BodyStream
deriving DecidableEq

/-! ## Context builders (logger.go 131-158) -/

/-- Model of BuildContextDataAndSetValue (logger.go 131-138): allocate a
fresh map, set data[ContextIdKey] = contextId, store it in a context derived
from Background. -/
def BuildContextDataAndSetValue (h : Heap) (contextId : String) : Heap × GoContext :=
  let data : StrMap := StrMap.insert [] ContextIdKey contextId
  let res := h.alloc data
  (res.1, GoContext.withValue GoContext.background ContextDataMapKey (CtxVal.strMapRef res.2))

/-- Model of AppendContextDataAndSetValue (logger.go 140-147): allocate a
fresh map with the correlation id, derive a context from r.Context() and
return the request carrying the derived context (r.WithContext copies the
request; the original request keeps its context). -/
def AppendContextDataAndSetValue (h : Heap) (r : Request) (contextId : String) :
    Heap × Request :=
  let data : StrMap := StrMap.insert [] ContextIdKey contextId
  let res := h.alloc data
  (res.1, { r with ctx := GoContext.withValue r.ctx ContextDataMapKey (CtxVal.strMapRef res.2) })

/-- Model of SetContextDataAndSetValue (logger.go 149-158): a nil data
argument is replaced with a fresh empty map; data[ContextIdKey] = contextId
is an in-place write on the (possibly caller-supplied) map object; the same
object is then stored in the derived context. -/
def SetContextDataAndSetValue (h : Heap) (r : Request) (data : Option Nat)
    (contextId : String) : Heap × Request :=
  match data with
  | none =>
    let res := h.alloc (StrMap.insert [] ContextIdKey contextId)
    (res.1, { r with ctx := GoContext.withValue r.ctx ContextDataMapKey (CtxVal.strMapRef res.2) })
  | some ref =>
    let h2 := h.write ref (StrMap.insert (h.read ref) ContextIdKey contextId)
    (h2, { r with ctx := GoContext.withValue r.ctx ContextDataMapKey (CtxVal.strMapRef ref) })

/-! ## Caller resolver (logger.go 339-371) -/

/-- A runtime.Frame: function name, file, line. -/
structure Frame where
  function : String
  file : String
  line : Nat
deriving DecidableEq

/-- Depth bound of the stack walk (logger.go 75). -/
def maximumCallerDepth : Nat := 25

/-- Known internal frame count skipped after initialisation (logger.go 76). -/
def knownLogFrames : Nat := 3

/-- The caller-resolution state established by getCaller's sync.Once
initialisation (logger.go 343-353): the cached qualified name of this
package and the minimum frame depth to skip. -/
structure CallerState where
  thisPackageName : String
  minimumCallerDepth : Nat
deriving DecidableEq

/-- Model of getCaller (logger.go 340-371) after initialisation, with the
runtime call stack passed explicitly: take at most maximumCallerDepth frames
starting at minimumCallerDepth and return the first frame whose package is
not this package; nil when none qualifies. -/
def getCallerFrom (st : CallerState) (stack : List Frame) : Option Frame :=
  ((stack.drop st.minimumCallerDepth).take maximumCallerDepth).find?
    (fun f => getPackageNameS f.function != st.thisPackageName)

/-! ## LogParams field assembly (logger.go 268-321) -/

/-- Model of setCaller (logger.go 274-287). -/
def setCaller (lp : Fields) (caller : Option Frame) : Fields :=
  match caller with
  | none => lp
  | some c =>
    let funcVal := c.function
    let fileVal := c.file ++ ":" ++ toString c.line
    let lp1 := if funcVal ≠ "" then Fields.insert lp "func" (.str funcVal) else lp
    if fileVal ≠ "" then Fields.insert lp1 "file" (.str fileVal) else lp1

/-- Model of setCallStackTrace (logger.go 268-272): caller resolution runs
only when the level is at or more severe than logrus ErrorLevel. -/
def setCallStackTrace (lp : Fields) (logLevel : Level) (st : CallerState)
    (stack : List Frame) : Fields :=
  if logLevel.toNat ≤ Level.error.toNat then
    setCaller lp (getCallerFrom st stack)
  else lp

/-- The range loop of injectContextDataMap: lp.fields[key] = value for each
entry of the data map. -/
def applyStrMap (lp : Fields) (m : StrMap) : Fields :=
  m.foldl (fun acc kv => Fields.insert acc kv.1 (.str kv.2)) lp

/-- Model of injectContextDataMap (logger.go 289-301): look up the context
data map; when present and of map[string]string type, copy its entries into
the fields. -/
def injectContextDataMap (h : Heap) (lp : Fields) (ctx : GoContext) : Fields :=
  match ctx.value ContextDataMapKey with
  | some (.strMapRef ref) => applyStrMap lp (h.read ref)
  | _ => lp

/-- Model of injectURLPath (logger.go 303-306). -/
def injectURLPath (lp : Fields) (r : Request) : Fields :=
  Fields.insert lp PathKey (.str (r.host ++ r.urlPath))

/-- Escaping of one character inside a Go %q quotation (backslash and double
quote; escaping of non-printable characters is elided). -/
def goEscapeChar (c : Char) : String :=
  if c = '"' ∨ c = '\\' then "\\" ++ String.mk [c] else String.mk [c]

/-- Go %q quotation of a string's contents. -/
def goQuote (s : String) : String :=
  "\"" ++ String.join (s.data.map goEscapeChar) ++ "\""

/-- Text representation fmt.Sprintf("%q", r.Body) of the restored body
(logger.go 313): the restored body is a NopCloser struct wrapping a
bytes.Buffer, so fmt prints a brace, the buffer contents quoted, a brace. -/
def requestBodyRepr (buf : String) : String := "\x7b" ++ goQuote buf ++ "\x7d"

/-- Model of injectRequestBody (logger.go 308-315): read the whole body,
restore a fresh readable stream holding the same bytes onto the request, and
record the text representation of the restored body under RequestKey.
Mutation of the request object through its pointer is modelled by returning
the updated request. -/
def injectRequestBody (lp : Fields) (r : Request) : Fields × Request :=
  let buf := (readAll r.body).1
  let r2 := { r with body := BodyStream.mk buf }
  (Fields.insert lp RequestKey (.str (requestBodyRepr buf)), r2)

/-- A sequence of call-specific field writes (the shape of InfoMap's dataMap
loop and of the injectURLPath / injectRequestBody / injectResponseBody
insertions), applied in order. -/
def applyExtras (lp : Fields) (extras : List (String × FieldValue)) : Fields :=
  extras.foldl (fun acc kv => Fields.insert acc kv.1 kv.2) lp

/-- The last value a write sequence binds to a key. -/
def lastVal : List (String × FieldValue) → String → Option FieldValue
  | [], _ => none
  | (k1, v) :: rest, k =>
    match lastVal rest k with
    | some w => some w
    | none => if k = k1 then some v else none

/-- The field-accumulation pipeline shared by the log methods
(logger.go 170-266): caller-frame fields first (setCaller), then the context
data map (injectContextDataMap), then the call-specific writes; caller
resolution is abstracted to its result. -/
def accumulateFields (h : Heap) (caller : Option Frame) (ctx : GoContext)
    (extras : List (String × FieldValue)) : Fields :=
  applyExtras (injectContextDataMap h (setCaller emptyFields caller) ctx) extras

/-! ## Logging facade (logger.go 61-266) -/

/-- The Log struct: its logrus entry is modelled by the base fields attached
to every record (the service field added by NewLogger). -/
structure Log where
  entry : Fields

/-- Model of NewLogger (logger.go 89-98): the entry carries the service
field. -/
def NewLogger (service : String) : Log :=
  Log.mk (Fields.insert emptyFields "service" (.str service))

/-- The common body of the leveled log methods (logger.go 170-238): a fresh
LogParams, setCallStackTrace at the method's level, injectContextDataMap. -/
def logCallFields (level : Level) (st : CallerState) (stack : List Frame)
    (h : Heap) (ctx : GoContext) : Fields :=
  injectContextDataMap h (setCallStackTrace emptyFields level st stack) ctx

/-- Fields built by Info (logger.go 205-210). -/
def InfoFields := logCallFields Level.info

/-- Fields built by Infof (logger.go 170-175). -/
def InfofFields := logCallFields Level.info

/-- Fields built by Warn (logger.go 212-217). -/
def WarnFields := logCallFields Level.warn

/-- Fields built by Warnf (logger.go 177-182). -/
def WarnfFields := logCallFields Level.warn

/-- Fields built by Error (logger.go 219-224). -/
def ErrorFields := logCallFields Level.error

/-- Fields built by Errorf (logger.go 184-189). -/
def ErrorfFields := logCallFields Level.error

/-- Fields built by Debug (logger.go 226-231). -/
def DebugFields := logCallFields Level.debug

/-- Fields built by Debugf (logger.go 191-196). -/
def DebugfFields := logCallFields Level.debug

/-- Fields built by Fatal (logger.go 233-238). -/
def FatalFields := logCallFields Level.fatal

/-- Fields built by Fatalf (logger.go 198-203). -/
def FatalfFields := logCallFields Level.fatal

/-- Model of entry.WithFields: the per-call fields override the entry's base
fields in the emitted record. -/
def mergeFields (base lp : Fields) : Fields :=
  fun k =>
    match lp k with
    | some v => some v
    | none => base k

/-- The full record emitted by Info: base entry fields overridden by the
per-call fields. -/
def Log.InfoRecord (l : Log) (st : CallerState) (stack : List Frame)
    (h : Heap) (ctx : GoContext) : Fields :=
  mergeFields l.entry (InfoFields st stack h ctx)

/-- Model of LogRequest (logger.go 254-259): Info-level caller handling,
context data, URL path, request body (read and restored); returns the
emitted record's fields and the request carrying the restored body. -/
def Log.LogRequest (l : Log) (st : CallerState) (stack : List Frame)
    (h : Heap) (ctx : GoContext) (r : Request) : Fields × Request :=
  let lp := setCallStackTrace emptyFields Level.info st stack
  let lp := injectContextDataMap h lp ctx
  let lp := injectURLPath lp r
  let res := injectRequestBody lp r
  (mergeFields l.entry res.1, res.2)

/-! ## Response capture wrapper (logger.go 160-164, 317-337) -/

/-- One event forwarded to the wrapped http.ResponseWriter. -/
inductive SinkEvent
  | header (code : Int)
  | write (body : String)
deriving DecidableEq

/-- LoggingResponseWriter (logger.go 323-327); the wrapped response writer
is modelled by the ordered trace of events forwarded to it. -/
structure LoggingResponseWriter where
  Status : Int
  Body : String
  sink : List SinkEvent
deriving DecidableEq

/-- Model of CreateResponseWrapper (logger.go 160-164): Status and Body start
at their zero values. -/
def CreateResponseWrapper (rw : List SinkEvent) : LoggingResponseWriter :=
  { Status := 0, Body := "", sink := rw }

/-- Model of WriteHeader (logger.go 329-332): record the status, forward the
code unmodified. -/
def LoggingResponseWriter.WriteHeader (w : LoggingResponseWriter) (code : Int) :
    LoggingResponseWriter :=
  { w with Status := code, sink := w.sink ++ [SinkEvent.header code] }

/-- Model of Write (logger.go 334-337): w.Body = string(body) replaces the
recorded body, then the original bytes are forwarded unmodified. -/
def LoggingResponseWriter.Write (w : LoggingResponseWriter) (body : String) :
    LoggingResponseWriter :=
  { w with Body := body, sink := w.sink ++ [SinkEvent.write body] }

/-- Model of injectResponseBody (logger.go 317-321). -/
def injectResponseBody (lp : Fields) (w : LoggingResponseWriter) : Fields :=
  Fields.insert (Fields.insert lp ResponseCodeKey (.int w.Status)) ResponseKey (.str w.Body)

/-- One status write followed by a sequence of body writes on a fresh wrapper
over the sink rw. -/
def runStatusThenBodies (rw : List SinkEvent) (s : Int) (bodies : List String) :
    LoggingResponseWriter :=
  bodies.foldl LoggingResponseWriter.Write ((CreateResponseWrapper rw).WriteHeader s)

/-- Writing the same sequence directly to the sink: the status then each body
chunk, after whatever the sink already received. -/
def directSink (rw : List SinkEvent) (s : Int) (bodies : List String) : List SinkEvent :=
  rw ++ SinkEvent.header s :: bodies.map SinkEvent.write

/-! # Theorems -/

/-! ## Lemmas about lastIndex and getPackageName -/

theorem neg_one_le_lastIndex (c : Char) (s : List Char) : -1 ≤ lastIndex c s := by
  induction s with
  | nil => simp [lastIndex]
  | cons x xs ih =>
    simp only [lastIndex]
    split
    · omega
    · split <;> omega

theorem lastIndex_lt_length (c : Char) (s : List Char) :
    lastIndex c s < (s.length : Int) := by
  induction s with
  | nil => simp [lastIndex]
  | cons x xs ih =>
    simp only [lastIndex, List.length_cons]
    split
    · push_cast; omega
    · split <;> (push_cast; omega)

theorem getPackageName_prefix : ∀ f : List Char, getPackageName f <+: f := by
  have H : ∀ (n : Nat) (f : List Char), f.length ≤ n → getPackageName f <+: f := by
    intro n
    induction n with
    | zero =>
      intro f hf
      have hf0 : f = [] := List.length_eq_zero.mp (Nat.le_zero.mp hf)
      subst hf0
      rw [getPackageName]
      simp [lastIndex]
    | succ n ih =>
      intro f hf
      rw [getPackageName]
      split
      · rename_i hcond
        have h1 := lastIndex_lt_length '.' f
        have h2 := neg_one_le_lastIndex '/' f
        have hlt : (f.take (lastIndex '.' f).toNat).length ≤ n := by
          simp only [List.length_take]
          omega
        exact (ih _ hlt).trans (List.take_prefix _ _)
      · exact List.prefix_rfl
  intro f
  exact H f.length f le_rfl

/-- C10: for every input string, getPackageName terminates (it is a total
function whose recursion strictly shortens its argument) and returns a
prefix of its input. -/
theorem C10_getPackageName_terminates_prefix (s : String) :
    (getPackageNameS s).data <+: s.data ∧ (getPackageNameS s).length ≤ s.length := by
  have hp : getPackageName s.data <+: s.data := getPackageName_prefix s.data
  refine ⟨hp, ?_⟩
  have h2 : (getPackageNameS s).length = (getPackageName s.data).length := rfl
  have h3 : s.length = s.data.length := rfl
  rw [h2, h3]
  exact hp.length_le

/-! ## Map and field-set lemmas -/

theorem StrMap.lookup_insert_self (m : StrMap) (k v : String) :
    StrMap.lookup (StrMap.insert m k v) k = some v := by
  induction m with
  | nil => simp [StrMap.insert, StrMap.lookup]
  | cons kv rest ih =>
    obtain ⟨k1, v1⟩ := kv
    by_cases hk : k = k1
    · simp [StrMap.insert, StrMap.lookup, hk]
    · simp [StrMap.insert, StrMap.lookup, hk, ih]

theorem applyExtras_lastVal (extras : List (String × FieldValue)) :
    ∀ (lp : Fields) (k : String),
      applyExtras lp extras k =
        match lastVal extras k with
        | some v => some v
        | none => lp k := by
  induction extras with
  | nil => intro lp k; rfl
  | cons kv rest ih =>
    intro lp k
    obtain ⟨k1, v⟩ := kv
    show applyExtras (Fields.insert lp k1 v) rest k = _
    rw [ih]
    simp only [lastVal]
    cases hrest : lastVal rest k with
    | some w => rfl
    | none => by_cases hk : k = k1 <;> simp [Fields.insert, hk]

/-! ## Claim C2: field merge precedence -/

/-- C2: in the field-accumulation pipeline — caller-frame fields first, then
context-data fields, then call-specific fields, each write overwriting — a
key bound by the call-specific writes ends up with its last call-specific
value, regardless of caller-frame or context bindings of the same key. -/
theorem C2_call_specific_wins (h : Heap) (caller : Option Frame) (ctx : GoContext)
    (extras : List (String × FieldValue)) (k : String) (v : FieldValue)
    (hlast : lastVal extras k = some v) :
    accumulateFields h caller ctx extras k = some v := by
  show applyExtras _ extras k = some v
  rw [applyExtras_lastVal, hlast]

/-- Witness for C2: a caller-frame file F1, a context file F2 and a
call-specific file F3 yield file = F3. -/
theorem C2_witness :
    lastVal [("file", FieldValue.str "F3")] "file" = some (FieldValue.str "F3") ∧
    accumulateFields (Heap.mk (fun _ => [("file", "F2")]) 1)
      (some (Frame.mk "main.main" "F1" 1))
      (GoContext.withValue GoContext.background ContextDataMapKey (CtxVal.strMapRef 0))
      [("file", FieldValue.str "F3")] "file" = some (FieldValue.str "F3") :=
  ⟨rfl,
   C2_call_specific_wins (Heap.mk (fun _ => [("file", "F2")]) 1)
     (some (Frame.mk "main.main" "F1" 1))
     (GoContext.withValue GoContext.background ContextDataMapKey (CtxVal.strMapRef 0))
     [("file", FieldValue.str "F3")] "file" (FieldValue.str "F3") rfl⟩

/-! ## Claim C3: the response capture wrapper -/

theorem foldl_Write_spec (bodies : List String) :
    ∀ w : LoggingResponseWriter,
      (bodies.foldl LoggingResponseWriter.Write w).sink
          = w.sink ++ bodies.map SinkEvent.write ∧
      (bodies.foldl LoggingResponseWriter.Write w).Status = w.Status ∧
      (bodies.foldl LoggingResponseWriter.Write w).Body = bodies.getLastD w.Body := by
  induction bodies with
  | nil => intro w; simp
  | cons b bs ih =>
    intro w
    have hrec := ih (w.Write b)
    refine ⟨?_, ?_, ?_⟩
    · rw [List.foldl_cons, hrec.1]
      simp [LoggingResponseWriter.Write]
    · rw [List.foldl_cons, hrec.2.1]
      rfl
    · rw [List.foldl_cons, hrec.2.2, List.getLastD_cons]
      rfl

/-- C3 fails as stated: after body writes "a" then "b", the recorded Body is
"b", the last write, not the concatenation "ab". -/
theorem C3_counterexample :
    (((CreateResponseWrapper []).WriteHeader 200).Write "a" |>.Write "b").Body = "b" ∧
    ¬ (((CreateResponseWrapper []).WriteHeader 200).Write "a" |>.Write "b").Body = "a" ++ "b" := by
  constructor
  · rfl
  · decide

/-- C3 (amended): for one status write followed by any number of body writes,
the events the wrapped sink receives are byte-identical to writing directly
to it, the recorded Status equals the written status, and the recorded Body
equals the last body write (empty when there is none), not the
concatenation. -/
theorem C3_wrapper_passthrough_last_body (rw : List SinkEvent) (s : Int)
    (bodies : List String) :
    (runStatusThenBodies rw s bodies).sink = directSink rw s bodies ∧
    (runStatusThenBodies rw s bodies).Status = s ∧
    (runStatusThenBodies rw s bodies).Body = bodies.getLastD "" := by
  have hrec := foldl_Write_spec bodies ((CreateResponseWrapper rw).WriteHeader s)
  refine ⟨?_, ?_, ?_⟩
  · rw [runStatusThenBodies, hrec.1]
    simp [CreateResponseWrapper, LoggingResponseWriter.WriteHeader, directSink]
  · rw [runStatusThenBodies, hrec.2.1]
    rfl
  · rw [runStatusThenBodies, hrec.2.2]
    rfl

/-! ## Evaluation lemmas for concrete package names and stacks -/

theorem getPackageNameS_main : getPackageNameS "main.main" = "main" := by
  simp [getPackageNameS, getPackageName, lastIndex]

theorem getPackageNameS_logpkg :
    getPackageNameS "github.com/muhammad-fakhri/log.(*Log).Warn"
      = "github.com/muhammad-fakhri/log" := by
  simp [getPackageNameS, getPackageName, lastIndex]

theorem getCallerFrom_main_frame :
    getCallerFrom (CallerState.mk "github.com/muhammad-fakhri/log" 0)
      [Frame.mk "main.main" "/app/main.go" 10]
      = some (Frame.mk "main.main" "/app/main.go" 10) := by
  have hstep :
      getCallerFrom (CallerState.mk "github.com/muhammad-fakhri/log" 0)
        [Frame.mk "main.main" "/app/main.go" 10] =
      List.find? (fun f => getPackageNameS f.function != "github.com/muhammad-fakhri/log")
        [Frame.mk "main.main" "/app/main.go" 10] := rfl
  rw [hstep]
  rw [List.find?_cons_of_pos]
  rw [show (Frame.mk "main.main" "/app/main.go" 10).function = "main.main" from rfl,
     getPackageNameS_main]
  decide

/-! ## Claim C1: which severities resolve the caller -/

/-- C1 fails as stated: with a resolvable external caller frame (nonempty
function name) on the stack, Warn attaches neither func nor file, because
warn severity is not at or more severe than logrus ErrorLevel and caller
resolution is skipped. -/
theorem C1_counterexample :
    getCallerFrom (CallerState.mk "github.com/muhammad-fakhri/log" 0)
        [Frame.mk "main.main" "/app/main.go" 10]
      = some (Frame.mk "main.main" "/app/main.go" 10) ∧
    (Frame.mk "main.main" "/app/main.go" 10).function ≠ "" ∧
    WarnFields (CallerState.mk "github.com/muhammad-fakhri/log" 0)
        [Frame.mk "main.main" "/app/main.go" 10] (Heap.mk (fun _ => []) 0)
        GoContext.background "func" = none ∧
    WarnFields (CallerState.mk "github.com/muhammad-fakhri/log" 0)
        [Frame.mk "main.main" "/app/main.go" 10] (Heap.mk (fun _ => []) 0)
        GoContext.background "file" = none :=
  ⟨getCallerFrom_main_frame, by decide, rfl, rfl⟩

/-- C1 (amended): caller-frame resolution runs only for severities at or
more severe than logrus ErrorLevel — Error/Errorf and Fatal/Fatalf attach
func and file when a frame with a nonempty function name is found, while
Warn/Warnf, Info/Infof and Debug/Debugf skip resolution entirely, so their
fields are exactly the context injection into an empty field set. -/
theorem C1_caller_only_at_error_or_above (st : CallerState) (stack : List Frame)
    (h : Heap) (ctx : GoContext) (c : Frame)
    (hfound : getCallerFrom st stack = some c) (hfn : c.function ≠ "") :
    setCallStackTrace emptyFields Level.warn st stack = emptyFields ∧
    setCallStackTrace emptyFields Level.info st stack = emptyFields ∧
    setCallStackTrace emptyFields Level.debug st stack = emptyFields ∧
    WarnFields st stack h ctx = injectContextDataMap h emptyFields ctx ∧
    WarnfFields st stack h ctx = injectContextDataMap h emptyFields ctx ∧
    InfoFields st stack h ctx = injectContextDataMap h emptyFields ctx ∧
    InfofFields st stack h ctx = injectContextDataMap h emptyFields ctx ∧
    DebugFields st stack h ctx = injectContextDataMap h emptyFields ctx ∧
    DebugfFields st stack h ctx = injectContextDataMap h emptyFields ctx ∧
    setCallStackTrace emptyFields Level.error st stack "func"
      = some (FieldValue.str c.function) ∧
    setCallStackTrace emptyFields Level.error st stack "file"
      = some (FieldValue.str (c.file ++ ":" ++ toString c.line)) ∧
    setCallStackTrace emptyFields Level.fatal st stack "func"
      = some (FieldValue.str c.function) ∧
    setCallStackTrace emptyFields Level.fatal st stack "file"
      = some (FieldValue.str (c.file ++ ":" ++ toString c.line)) := by
  have hwarn : setCallStackTrace emptyFields Level.warn st stack = emptyFields := by
    rw [setCallStackTrace, if_neg (by decide)]
  have hinfo : setCallStackTrace emptyFields Level.info st stack = emptyFields := by
    rw [setCallStackTrace, if_neg (by decide)]
  have hdebug : setCallStackTrace emptyFields Level.debug st stack = emptyFields := by
    rw [setCallStackTrace, if_neg (by decide)]
  have hfile : (c.file ++ ":" ++ toString c.line) ≠ "" := by
    intro heq
    have hlen := congrArg String.length heq
    rw [String.length_append, String.length_append,
       show (":" : String).length = 1 from rfl,
       show ("" : String).length = 0 from rfl] at hlen
    omega
  have hcaller : setCaller emptyFields (some c)
      = Fields.insert (Fields.insert emptyFields "func" (FieldValue.str c.function))
          "file" (FieldValue.str (c.file ++ ":" ++ toString c.line)) := by
    rw [setCaller]
    simp only [if_pos hfn, if_pos hfile]
  have herror : setCallStackTrace emptyFields Level.error st stack
      = Fields.insert (Fields.insert emptyFields "func" (FieldValue.str c.function))
          "file" (FieldValue.str (c.file ++ ":" ++ toString c.line)) := by
    rw [setCallStackTrace, if_pos (by decide), hfound, hcaller]
  have hfatal : setCallStackTrace emptyFields Level.fatal st stack
      = Fields.insert (Fields.insert emptyFields "func" (FieldValue.str c.function))
          "file" (FieldValue.str (c.file ++ ":" ++ toString c.line)) := by
    rw [setCallStackTrace, if_pos (by decide), hfound, hcaller]
  refine ⟨hwarn, hinfo, hdebug, ?_, ?_, ?_, ?_, ?_, ?_, ?_, ?_, ?_, ?_⟩
  · show injectContextDataMap h (setCallStackTrace emptyFields Level.warn st stack) ctx = _
    rw [hwarn]
  · show injectContextDataMap h (setCallStackTrace emptyFields Level.warn st stack) ctx = _
    rw [hwarn]
  · show injectContextDataMap h (setCallStackTrace emptyFields Level.info st stack) ctx = _
    rw [hinfo]
  · show injectContextDataMap h (setCallStackTrace emptyFields Level.info st stack) ctx = _
    rw [hinfo]
  · show injectContextDataMap h (setCallStackTrace emptyFields Level.debug st stack) ctx = _
    rw [hdebug]
  · show injectContextDataMap h (setCallStackTrace emptyFields Level.debug st stack) ctx = _
    rw [hdebug]
  · rw [herror]
    simp [Fields.insert]
  · rw [herror]
    simp [Fields.insert]
  · rw [hfatal]
    simp [Fields.insert]
  · rw [hfatal]
    simp [Fields.insert]

/-- Witness for C1: on a stack whose first frame is an external main.main
frame, error-severity field assembly attaches func while Warn's fields stay
the bare context injection. -/
theorem C1_witness :
    getCallerFrom (CallerState.mk "github.com/muhammad-fakhri/log" 0)
        [Frame.mk "main.main" "/app/main.go" 10]
      = some (Frame.mk "main.main" "/app/main.go" 10) ∧
    (Frame.mk "main.main" "/app/main.go" 10).function ≠ "" ∧
    setCallStackTrace emptyFields Level.error
        (CallerState.mk "github.com/muhammad-fakhri/log" 0)
        [Frame.mk "main.main" "/app/main.go" 10] "func"
      = some (FieldValue.str "main.main") ∧
    WarnFields (CallerState.mk "github.com/muhammad-fakhri/log" 0)
        [Frame.mk "main.main" "/app/main.go" 10] (Heap.mk (fun _ => []) 0)
        GoContext.background
      = injectContextDataMap (Heap.mk (fun _ => []) 0) emptyFields GoContext.background := by
  have hmain := C1_caller_only_at_error_or_above
    (CallerState.mk "github.com/muhammad-fakhri/log" 0)
    [Frame.mk "main.main" "/app/main.go" 10]
    (Heap.mk (fun _ => []) 0) GoContext.background
    (Frame.mk "main.main" "/app/main.go" 10)
    getCallerFrom_main_frame (by decide)
  exact ⟨getCallerFrom_main_frame, by decide,
    hmain.2.2.2.2.2.2.2.2.2.1, hmain.2.2.2.1⟩


/-! ## Claim C6: caller not found is a soft degradation -/

/-- C6: when every frame within the depth bound belongs to the logging
package — in particular when the 25-frame bound cuts the walk short —
getCaller returns the nil sentinel rather than failing, error-severity field
assembly then leaves the field set untouched (func and file omitted), and
the walk's result never depends on frames beyond the depth bound. -/
theorem C6_no_caller_soft_degradation (st : CallerState) (stack : List Frame)
    (hall : ((stack.drop st.minimumCallerDepth).take maximumCallerDepth).all
        (fun f => getPackageNameS f.function == st.thisPackageName) = true) :
    getCallerFrom st stack = none ∧
    setCallStackTrace emptyFields Level.error st stack = emptyFields ∧
    (∀ s2 : List Frame,
        getCallerFrom st s2
          = getCallerFrom st (s2.take (st.minimumCallerDepth + maximumCallerDepth))) := by
  have hnone : getCallerFrom st stack = none := by
    rw [getCallerFrom]
    apply List.find?_eq_none.mpr
    intro f hf
    have hp := List.all_eq_true.mp hall f hf
    have heq : getPackageNameS f.function = st.thisPackageName := eq_of_beq hp
    simp [heq]
  refine ⟨hnone, ?_, ?_⟩
  · rw [setCallStackTrace, if_pos (by decide), hnone]
    rfl
  · intro s2
    rw [getCallerFrom, getCallerFrom, List.drop_take, List.take_take]
    have harith :
        min maximumCallerDepth (st.minimumCallerDepth + maximumCallerDepth - st.minimumCallerDepth)
          = maximumCallerDepth := by omega
    rw [harith]

/-- Witness for C6: four logging-package frames with three skipped yield no
caller and an untouched field set. -/
theorem C6_witness :
    ((([Frame.mk "github.com/muhammad-fakhri/log.(*Log).Warn" "logger.go" 213,
        Frame.mk "github.com/muhammad-fakhri/log.(*Log).Warn" "logger.go" 213,
        Frame.mk "github.com/muhammad-fakhri/log.(*Log).Warn" "logger.go" 213,
        Frame.mk "github.com/muhammad-fakhri/log.(*Log).Warn" "logger.go" 213] : List Frame).drop
          3).take maximumCallerDepth).all
      (fun f => getPackageNameS f.function == "github.com/muhammad-fakhri/log") = true ∧
    getCallerFrom (CallerState.mk "github.com/muhammad-fakhri/log" 3)
      [Frame.mk "github.com/muhammad-fakhri/log.(*Log).Warn" "logger.go" 213,
       Frame.mk "github.com/muhammad-fakhri/log.(*Log).Warn" "logger.go" 213,
       Frame.mk "github.com/muhammad-fakhri/log.(*Log).Warn" "logger.go" 213,
       Frame.mk "github.com/muhammad-fakhri/log.(*Log).Warn" "logger.go" 213] = none ∧
    setCallStackTrace emptyFields Level.error
      (CallerState.mk "github.com/muhammad-fakhri/log" 3)
      [Frame.mk "github.com/muhammad-fakhri/log.(*Log).Warn" "logger.go" 213,
       Frame.mk "github.com/muhammad-fakhri/log.(*Log).Warn" "logger.go" 213,
       Frame.mk "github.com/muhammad-fakhri/log.(*Log).Warn" "logger.go" 213,
       Frame.mk "github.com/muhammad-fakhri/log.(*Log).Warn" "logger.go" 213] = emptyFields := by
  have hall :
      ((([Frame.mk "github.com/muhammad-fakhri/log.(*Log).Warn" "logger.go" 213,
          Frame.mk "github.com/muhammad-fakhri/log.(*Log).Warn" "logger.go" 213,
          Frame.mk "github.com/muhammad-fakhri/log.(*Log).Warn" "logger.go" 213,
          Frame.mk "github.com/muhammad-fakhri/log.(*Log).Warn" "logger.go" 213] : List Frame).drop
            3).take maximumCallerDepth).all
        (fun f => getPackageNameS f.function == "github.com/muhammad-fakhri/log") = true := by
    show ((getPackageNameS "github.com/muhammad-fakhri/log.(*Log).Warn"
        == "github.com/muhammad-fakhri/log") && true) = true
    rw [getPackageNameS_logpkg]
    decide
  have hmain := C6_no_caller_soft_degradation
    (CallerState.mk "github.com/muhammad-fakhri/log" 3)
    [Frame.mk "github.com/muhammad-fakhri/log.(*Log).Warn" "logger.go" 213,
     Frame.mk "github.com/muhammad-fakhri/log.(*Log).Warn" "logger.go" 213,
     Frame.mk "github.com/muhammad-fakhri/log.(*Log).Warn" "logger.go" 213,
     Frame.mk "github.com/muhammad-fakhri/log.(*Log).Warn" "logger.go" 213] hall
  exact ⟨hall, hmain.1, hmain.2.1⟩

/-! ## Claims C4 and C5: mutation behaviour of the context builders -/

theorem value_strMapRef_lt (ctx : GoContext) (n : Nat) (key : String) (ref : Nat)
    (hb : ctxRefsBounded ctx n = true)
    (hv : ctx.value key = some (CtxVal.strMapRef ref)) : ref < n := by
  induction ctx with
  | background => exact absurd hv (by simp [GoContext.value])
  | withValue parent k v ih =>
    rw [GoContext.value] at hv
    by_cases hk : key = k
    · rw [if_pos hk] at hv
      cases v with
      | strMapRef r2 =>
        have hr2 : r2 = ref := by
          simpa using hv
        have hb2 : (decide (r2 < n) && ctxRefsBounded parent n) = true := hb
        rw [Bool.and_eq_true] at hb2
        have hlt := of_decide_eq_true hb2.1
        omega
      | other => exact absurd hv (by simp)
    · rw [if_neg hk] at hv
      cases v with
      | strMapRef r2 =>
        have hb2 : (decide (r2 < n) && ctxRefsBounded parent n) = true := hb
        rw [Bool.and_eq_true] at hb2
        exact ih hb2.2 hv
      | other =>
        have hb2 : (true && ctxRefsBounded parent n) = true := hb
        rw [Bool.and_eq_true] at hb2
        exact ih hb2.2 hv

/-- C4 fails as stated: when the caller passes SetContextDataAndSetValue the
very map object already bound in the request's context, the original
request's context binding afterwards does reflect the new correlation id. -/
theorem C4_counterexample :
    getContextData (Heap.mk (fun _ => [("context_id", "old")]) 1)
      (GoContext.withValue GoContext.background ContextDataMapKey (CtxVal.strMapRef 0))
      = some (contextData.mk "old") ∧
    getContextData
      (SetContextDataAndSetValue (Heap.mk (fun _ => [("context_id", "old")]) 1)
        (Request.mk
          (GoContext.withValue GoContext.background ContextDataMapKey (CtxVal.strMapRef 0))
          "" "" (BodyStream.mk ""))
        (some 0) "new").1
      (GoContext.withValue GoContext.background ContextDataMapKey (CtxVal.strMapRef 0))
      = some (contextData.mk "new") := by
  constructor
  · rfl
  · rfl

/-- C4 (amended): AppendContextDataAndSetValue and the nil-data form of
SetContextDataAndSetValue return a derived request carrying the new
correlation id and never change what the original request's context binding
yields; SetContextDataAndSetValue with a caller-supplied map also leaves the
original binding unchanged provided that map is not the very object bound in
the request's context (when it is, the original binding mutates, per the
counterexample). -/
theorem C4_original_binding_preserved (h : Heap) (r : Request) (cid : String) (ref : Nat)
    (hb : ctxRefsBounded r.ctx h.next = true)
    (hne : r.ctx.value ContextDataMapKey ≠ some (CtxVal.strMapRef ref)) :
    getContextData (AppendContextDataAndSetValue h r cid).1 r.ctx = getContextData h r.ctx ∧
    (AppendContextDataAndSetValue h r cid).2.ctx
      = GoContext.withValue r.ctx ContextDataMapKey (CtxVal.strMapRef h.next) ∧
    getContextData (AppendContextDataAndSetValue h r cid).1
        (AppendContextDataAndSetValue h r cid).2.ctx = some (contextData.mk cid) ∧
    getContextData (SetContextDataAndSetValue h r none cid).1 r.ctx
      = getContextData h r.ctx ∧
    getContextData (SetContextDataAndSetValue h r none cid).1
        (SetContextDataAndSetValue h r none cid).2.ctx = some (contextData.mk cid) ∧
    getContextData (SetContextDataAndSetValue h r (some ref) cid).1 r.ctx
      = getContextData h r.ctx := by
  have hreadA : ∀ (m : StrMap) (rf : Nat), rf < h.next → ((h.alloc m).1).read rf = h.read rf := by
    intro m rf hrf
    show (if rf = h.next then m else h.maps rf) = h.maps rf
    rw [if_neg (by omega)]
  have hallocSame : ∀ m : StrMap, getContextData (h.alloc m).1 r.ctx = getContextData h r.ctx := by
    intro m
    unfold getContextData
    cases hv : r.ctx.value ContextDataMapKey with
    | none => rfl
    | some v =>
      cases v with
      | other => rfl
      | strMapRef rf =>
        have hlt := value_strMapRef_lt r.ctx h.next ContextDataMapKey rf hb hv
        show some (contextData.mk ((StrMap.lookup ((h.alloc m).1.read rf) ContextIdKey).getD ""))
            = some (contextData.mk ((StrMap.lookup (h.read rf) ContextIdKey).getD ""))
        rw [hreadA m rf hlt]
  have hderived : ∀ m : StrMap,
      getContextData (h.alloc (StrMap.insert m ContextIdKey cid)).1
        (GoContext.withValue r.ctx ContextDataMapKey (CtxVal.strMapRef h.next))
        = some (contextData.mk cid) := by
    intro m
    unfold getContextData
    rw [GoContext.value, if_pos rfl]
    show some (contextData.mk ((StrMap.lookup ((h.alloc (StrMap.insert m ContextIdKey cid)).1.read
        h.next) ContextIdKey).getD "")) = _
    have hread : (h.alloc (StrMap.insert m ContextIdKey cid)).1.read h.next
        = StrMap.insert m ContextIdKey cid := by
      show (if h.next = h.next then _ else _) = _
      rw [if_pos rfl]
    rw [hread, StrMap.lookup_insert_self]
    rfl
  refine ⟨hallocSame _, rfl, hderived [], hallocSame _, hderived [], ?_⟩
  unfold getContextData
  cases hv : r.ctx.value ContextDataMapKey with
  | none => rfl
  | some v =>
    cases v with
    | other => rfl
    | strMapRef rf =>
      have hrf : rf ≠ ref := by
        intro hcontra
        subst hcontra
        exact hne hv
      show some (contextData.mk ((StrMap.lookup (if rf = ref then _ else h.maps rf)
          ContextIdKey).getD "")) = _
      rw [if_neg hrf]
      rfl

/-- Witness for C4: a request whose context binds map 0 in a two-slot heap,
with the caller-supplied map being the distinct reference 1. -/
theorem C4_witness :
    ctxRefsBounded
      (Request.mk
        (GoContext.withValue GoContext.background ContextDataMapKey (CtxVal.strMapRef 0))
        "" "" (BodyStream.mk "")).ctx
      (Heap.mk (fun i => if i = 0 then [("context_id", "old")] else []) 2).next = true ∧
    (Request.mk
        (GoContext.withValue GoContext.background ContextDataMapKey (CtxVal.strMapRef 0))
        "" "" (BodyStream.mk "")).ctx.value ContextDataMapKey
      ≠ some (CtxVal.strMapRef 1) ∧
    getContextData
      (AppendContextDataAndSetValue
        (Heap.mk (fun i => if i = 0 then [("context_id", "old")] else []) 2)
        (Request.mk
          (GoContext.withValue GoContext.background ContextDataMapKey (CtxVal.strMapRef 0))
          "" "" (BodyStream.mk ""))
        "new").1
      (Request.mk
        (GoContext.withValue GoContext.background ContextDataMapKey (CtxVal.strMapRef 0))
        "" "" (BodyStream.mk "")).ctx
      = getContextData (Heap.mk (fun i => if i = 0 then [("context_id", "old")] else []) 2)
          (Request.mk
            (GoContext.withValue GoContext.background ContextDataMapKey (CtxVal.strMapRef 0))
            "" "" (BodyStream.mk "")).ctx ∧
    getContextData
      (SetContextDataAndSetValue
        (Heap.mk (fun i => if i = 0 then [("context_id", "old")] else []) 2)
        (Request.mk
          (GoContext.withValue GoContext.background ContextDataMapKey (CtxVal.strMapRef 0))
          "" "" (BodyStream.mk ""))
        (some 1) "new").1
      (Request.mk
        (GoContext.withValue GoContext.background ContextDataMapKey (CtxVal.strMapRef 0))
        "" "" (BodyStream.mk "")).ctx
      = getContextData (Heap.mk (fun i => if i = 0 then [("context_id", "old")] else []) 2)
          (Request.mk
            (GoContext.withValue GoContext.background ContextDataMapKey (CtxVal.strMapRef 0))
            "" "" (BodyStream.mk "")).ctx := by
  have hmain := C4_original_binding_preserved
    (Heap.mk (fun i => if i = 0 then [("context_id", "old")] else []) 2)
    (Request.mk
      (GoContext.withValue GoContext.background ContextDataMapKey (CtxVal.strMapRef 0))
      "" "" (BodyStream.mk ""))
    "new" 1 (by decide) (by decide)
  exact ⟨by decide, by decide, hmain.1, hmain.2.2.2.2.2⟩

/-- C5 fails as stated: passing a non-nil empty map object to
SetContextDataAndSetValue leaves it holding a context_id entry it did not
have before the call. -/
theorem C5_counterexample :
    (Heap.mk (fun _ => ([] : StrMap)) 1).read 0 = [] ∧
    (SetContextDataAndSetValue (Heap.mk (fun _ => ([] : StrMap)) 1)
        (Request.mk GoContext.background "" "" (BodyStream.mk "")) (some 0) "X").1.read 0
      = [("context_id", "X")] := by
  constructor
  · rfl
  · rfl

/-- C5 (amended): SetContextDataAndSetValue mutates a caller-supplied map in
place, adding or overwriting its context_id entry; only a nil data argument
gets a freshly allocated map, in which case no existing map object changes. -/
theorem C5_set_mutates_supplied_map (h : Heap) (r : Request) (ref j : Nat) (cid : String)
    (hj : j < h.next) :
    (SetContextDataAndSetValue h r (some ref) cid).1.read ref
      = StrMap.insert (h.read ref) ContextIdKey cid ∧
    (SetContextDataAndSetValue h r none cid).1.read j = h.read j := by
  constructor
  · show (if ref = ref then _ else _) = _
    rw [if_pos rfl]
  · show (if j = h.next then _ else _) = _
    rw [if_neg (by omega)]
    rfl

/-- Witness for C5: the supplied map object 0 gains the context_id entry,
while the nil-data call leaves existing map objects unchanged. -/
theorem C5_witness :
    0 < (Heap.mk (fun _ => ([] : StrMap)) 1).next ∧
    (SetContextDataAndSetValue (Heap.mk (fun _ => ([] : StrMap)) 1)
        (Request.mk GoContext.background "" "" (BodyStream.mk "")) (some 0) "X").1.read 0
      = StrMap.insert ((Heap.mk (fun _ => ([] : StrMap)) 1).read 0) ContextIdKey "X" ∧
    (SetContextDataAndSetValue (Heap.mk (fun _ => ([] : StrMap)) 1)
        (Request.mk GoContext.background "" "" (BodyStream.mk "")) none "X").1.read 0
      = (Heap.mk (fun _ => ([] : StrMap)) 1).read 0 := by
  have hmain := C5_set_mutates_supplied_map (Heap.mk (fun _ => ([] : StrMap)) 1)
    (Request.mk GoContext.background "" "" (BodyStream.mk "")) 0 0 "X" (by decide)
  exact ⟨by decide, hmain.1, hmain.2⟩

/-! ## Claim C7: LogRequest is non-destructive to the body stream -/

/-- C7: LogRequest reads the whole body, restores a readable stream holding
the same bytes onto the request — a subsequent read yields exactly the
original bytes — and records the text representation of those bytes under
the request key of the emitted record. -/
theorem C7_logrequest_body_nondestructive (l : Log) (st : CallerState) (stack : List Frame)
    (h : Heap) (ctx : GoContext) (r : Request) :
    (Log.LogRequest l st stack h ctx r).2.body.unread = (readAll r.body).1 ∧
    (readAll (Log.LogRequest l st stack h ctx r).2.body).1 = (readAll r.body).1 ∧
    (Log.LogRequest l st stack h ctx r).1 RequestKey
      = some (FieldValue.str (requestBodyRepr (readAll r.body).1)) := by
  refine ⟨rfl, rfl, ?_⟩
  show mergeFields l.entry
      (Fields.insert (injectURLPath (injectContextDataMap h
        (setCallStackTrace emptyFields Level.info st stack) ctx) r)
        RequestKey (FieldValue.str (requestBodyRepr r.body.unread))) RequestKey = _
  rw [mergeFields, Fields.insert]
  simp [readAll]

/-! ## Claim C8: BuildContextDataAndSetValue and the Info record -/

/-- C8: BuildContextDataAndSetValue returns a context whose freshly
allocated data map holds exactly the context_id entry; getContextData
recovers the correlation id; and the record emitted by Info with that
context carries context_id and neither func nor file. -/
theorem C8_build_context_info_record (service cid : String) (h : Heap)
    (st : CallerState) (stack : List Frame) :
    (BuildContextDataAndSetValue h cid).2
      = GoContext.withValue GoContext.background ContextDataMapKey (CtxVal.strMapRef h.next) ∧
    (BuildContextDataAndSetValue h cid).1.read h.next = [(ContextIdKey, cid)] ∧
    getContextData (BuildContextDataAndSetValue h cid).1 (BuildContextDataAndSetValue h cid).2
      = some (contextData.mk cid) ∧
    (NewLogger service).InfoRecord st stack (BuildContextDataAndSetValue h cid).1
        (BuildContextDataAndSetValue h cid).2 "context_id" = some (FieldValue.str cid) ∧
    (NewLogger service).InfoRecord st stack (BuildContextDataAndSetValue h cid).1
        (BuildContextDataAndSetValue h cid).2 "func" = none ∧
    (NewLogger service).InfoRecord st stack (BuildContextDataAndSetValue h cid).1
        (BuildContextDataAndSetValue h cid).2 "file" = none := by
  have hread : (BuildContextDataAndSetValue h cid).1.read h.next = [(ContextIdKey, cid)] := by
    show (if h.next = h.next then _ else _) = _
    rw [if_pos rfl]
    rfl
  have hfields : InfoFields st stack (BuildContextDataAndSetValue h cid).1
      (BuildContextDataAndSetValue h cid).2
      = Fields.insert emptyFields ContextIdKey (FieldValue.str cid) := by
    show injectContextDataMap (BuildContextDataAndSetValue h cid).1
        (setCallStackTrace emptyFields Level.info st stack)
        (BuildContextDataAndSetValue h cid).2 = _
    rw [setCallStackTrace, if_neg (by decide)]
    rw [injectContextDataMap]
    show (match GoContext.value (GoContext.withValue GoContext.background ContextDataMapKey
        (CtxVal.strMapRef h.next)) ContextDataMapKey with
      | some (CtxVal.strMapRef ref) =>
          applyStrMap emptyFields ((BuildContextDataAndSetValue h cid).1.read ref)
      | _ => emptyFields) = _
    rw [GoContext.value, if_pos rfl]
    show applyStrMap emptyFields ((BuildContextDataAndSetValue h cid).1.read h.next) = _
    rw [hread]
    rfl
  refine ⟨rfl, hread, ?_, ?_, ?_, ?_⟩
  · show (match GoContext.value (GoContext.withValue GoContext.background ContextDataMapKey
        (CtxVal.strMapRef h.next)) ContextDataMapKey with
      | some (CtxVal.strMapRef ref) =>
          some (contextData.mk
            ((StrMap.lookup ((BuildContextDataAndSetValue h cid).1.read ref)
              ContextIdKey).getD ""))
      | _ => none) = _
    rw [GoContext.value, if_pos rfl]
    show some (contextData.mk ((StrMap.lookup ((BuildContextDataAndSetValue h cid).1.read h.next)
        ContextIdKey).getD "")) = _
    rw [hread]
    rfl
  · show mergeFields (NewLogger service).entry (InfoFields st stack _ _) "context_id" = _
    rw [hfields, mergeFields]
    rfl
  · show mergeFields (NewLogger service).entry (InfoFields st stack _ _) "func" = _
    rw [hfields, mergeFields]
    rfl
  · show mergeFields (NewLogger service).entry (InfoFields st stack _ _) "file" = _
    rw [hfields, mergeFields]
    rfl

/-! ## Claim C9: nil extra data and correlation-id collision -/

/-- C9: a nil data argument is treated as a fresh empty map rather than an
error, and the correlation id wins every key collision: the data map bound
in the derived request maps context_id to the given id whatever the supplied
map already contained. -/
theorem C9_nil_data_and_collision (h : Heap) (r : Request) (cid : String) (ref : Nat) :
    (SetContextDataAndSetValue h r none cid).1.read h.next = [(ContextIdKey, cid)] ∧
    (SetContextDataAndSetValue h r none cid).2.ctx
      = GoContext.withValue r.ctx ContextDataMapKey (CtxVal.strMapRef h.next) ∧
    StrMap.lookup ((SetContextDataAndSetValue h r (some ref) cid).1.read ref) ContextIdKey
      = some cid ∧
    getContextData (SetContextDataAndSetValue h r (some ref) cid).1
        (SetContextDataAndSetValue h r (some ref) cid).2.ctx = some (contextData.mk cid) ∧
    getContextData (SetContextDataAndSetValue h r none cid).1
        (SetContextDataAndSetValue h r none cid).2.ctx = some (contextData.mk cid) := by
  have hreadSome : (SetContextDataAndSetValue h r (some ref) cid).1.read ref
      = StrMap.insert (h.read ref) ContextIdKey cid := by
    show (if ref = ref then _ else _) = _
    rw [if_pos rfl]
  have hreadNone : (SetContextDataAndSetValue h r none cid).1.read h.next
      = [(ContextIdKey, cid)] := by
    show (if h.next = h.next then _ else _) = _
    rw [if_pos rfl]
    rfl
  refine ⟨hreadNone, rfl, ?_, ?_, ?_⟩
  · rw [hreadSome, StrMap.lookup_insert_self]
  · show (match GoContext.value (GoContext.withValue r.ctx ContextDataMapKey
        (CtxVal.strMapRef ref)) ContextDataMapKey with
      | some (CtxVal.strMapRef rf) =>
          some (contextData.mk
            ((StrMap.lookup ((SetContextDataAndSetValue h r (some ref) cid).1.read rf)
              ContextIdKey).getD ""))
      | _ => none) = _
    rw [GoContext.value, if_pos rfl]
    show some (contextData.mk ((StrMap.lookup ((SetContextDataAndSetValue h r (some ref)
        cid).1.read ref) ContextIdKey).getD "")) = _
    rw [hreadSome, StrMap.lookup_insert_self]
    rfl
  · show (match GoContext.value (GoContext.withValue r.ctx ContextDataMapKey
        (CtxVal.strMapRef h.next)) ContextDataMapKey with
      | some (CtxVal.strMapRef rf) =>
          some (contextData.mk
            ((StrMap.lookup ((SetContextDataAndSetValue h r none cid).1.read rf)
              ContextIdKey).getD ""))
      | _ => none) = _
    rw [GoContext.value, if_pos rfl]
    show some (contextData.mk ((StrMap.lookup ((SetContextDataAndSetValue h r none
        cid).1.read h.next) ContextIdKey).getD "")) = _
    rw [hreadNone]
    rfl

end GoLog
